import Mathlib

/-!
Shallow embedding of the policy compiler and deployment engine of
`rotate.py` (radius-rotate), together with proofs about the claims of its
specification.

Python strings are modelled as `List Char`.  Unless a doc comment says
otherwise, every definition is a direct translation of the corresponding
function in `src/rotate.py`.  Modelling conventions:

* `str.splitlines` is modelled for text whose only line boundary is `'\x0a'`
  (the exotic boundary characters `'\x0d'`, `'\x0b'`, `'\x0c'`, … are outside
  the modelled fragment; the theorems that range over arbitrary text only
  exercise the marker-replacement branch, which never splits lines).
* `str.strip` is modelled on the ASCII whitespace set.
* `str.isalnum` is modelled on the Basic Latin and Latin-1 ranges; code
  points above U+00FF are outside the modelled fragment and mapped to
  `false`.
* a Python exception escaping a function is modelled by `Option.none`.
-/

set_option maxRecDepth 10000

/-! ## Python string primitives -/

/-- ASCII whitespace characters stripped by Python `str.strip`. -/
def pyWs : List Char := [' ', '\t', '\n', '\r', '\x0b', '\x0c']

/-- Python `str.strip()` (ASCII fragment). -/
def pyStrip (l : List Char) : List Char :=
  ((l.dropWhile (· ∈ pyWs)).reverse.dropWhile (· ∈ pyWs)).reverse

/-- Python `str.rstrip(set)`: drop trailing characters belonging to `set`. -/
def pyRstrip (l : List Char) (set : List Char) : List Char :=
  (l.reverse.dropWhile (· ∈ set)).reverse

/-- Python `str.splitlines()` for text whose only line boundary is `'\x0a'`. -/
def pySplitlines : List Char → List (List Char)
  | [] => []
  | c :: cs =>
    if c = '\n' then [] :: pySplitlines cs
    else
      match pySplitlines cs with
      | [] => [[c]]
      | line :: rest => (c :: line) :: rest

/-- Python `"\n".join(lines)`. -/
def pyJoin : List (List Char) → List Char
  | [] => []
  | [x] => x
  | x :: xs => x ++ '\n' :: pyJoin xs

/-- Python `sep.join(parts)` for a one-character separator. -/
def pyJoinSep (sep : Char) : List (List Char) → List Char
  | [] => []
  | [x] => x
  | x :: xs => x ++ sep :: pyJoinSep sep xs

/-- Python `s.split(sep)` for a one-character separator (keeps empty parts;
`"".split(sep) = [""]`). -/
def pySplitSep (sep : Char) : List Char → List (List Char)
  | [] => [[]]
  | c :: cs =>
    if c = sep then [] :: pySplitSep sep cs
    else
      match pySplitSep sep cs with
      | [] => [[c]]
      | part :: rest => (c :: part) :: rest

/-- Python `s.endswith("\n")`. -/
def pyEndsWithNL (l : List Char) : Bool :=
  l.getLast? == some '\n'

/-- Index of the first occurrence of `needle` as a contiguous substring of
`hay` (Python `str.find` / the `in` operator). -/
def findSub (hay needle : List Char) : Option Nat :=
  if needle.isPrefixOf hay then some 0
  else
    match hay with
    | [] => none
    | _ :: t => (findSub t needle).map (· + 1)

/-- Python `s.split(sep, 1)` in the case where `sep` occurs: the text before
the first occurrence and the text after it.  `none` when `sep` does not
occur (in which case the two-variable unpacking in the source raises). -/
def splitOnce (hay needle : List Char) : Option (List Char × List Char) :=
  match findSub hay needle with
  | none => none
  | some i => some (hay.take i, hay.drop (i + needle.length))

/-- A word has no nontrivial border: no proper nonempty suffix of it is also
a prefix of it.  Used to rule out occurrences of a marker that straddle the
boundary of an inserted copy of that marker. -/
def hasNoBorder (n : List Char) : Prop :=
  ∀ k, k < n.length → 0 < k → n.drop k ≠ n.take (n.length - k)

instance (n : List Char) : Decidable (hasNoBorder n) := by
  unfold hasNoBorder; infer_instance

/-! ## The injector (`inject_authorize_block`) -/

/-- Begin marker of the managed region (`rotate.py` line 812). -/
def beginMarker : List Char := "# radius-rotate begin".data

/-- End marker of the managed region (`rotate.py` line 813). -/
def endMarker : List Char := "# radius-rotate end".data

/-- A line that opens the `authorize` body: stripped content starts with
`authorize` and ends with an opening brace (`rotate.py` lines 824-827). -/
def isAuthorizeStart (line : List Char) : Bool :=
  let s := pyStrip line
  "authorize".data.isPrefixOf s && (s.getLast? == some '\x7b')

/-- Net brace count of one line (`line.count("{") - line.count("}")`). -/
def braceDelta (l : List Char) : Int :=
  (l.count '\x7b' : Int) - (l.count '\x7d' : Int)

/-- Scan forward accumulating brace depth; first index at which the running
depth returns to zero (`rotate.py` lines 834-841). -/
def findCloseAux : List (List Char) → Nat → Int → Option Nat
  | [], _, _ => none
  | l :: rest, idx, acc =>
    let acc' := acc + braceDelta l
    if acc' = 0 then some idx else findCloseAux rest (idx + 1) acc'

/-- Index of the closing line of the block opened at index `si`. -/
def findCloseIdx (lines : List (List Char)) (si : Nat) : Option Nat :=
  findCloseAux (lines.drop si) si 0

/-- The injector `inject_authorize_block(original, snippet)` of `rotate.py`
lines 811-870.  `none` models the uncaught `ValueError` raised when both
markers are present but no end marker occurs after the first begin
marker. -/
def inject_authorize_block (original snippet : List Char) : Option (List Char) :=
  if (findSub original beginMarker).isSome && (findSub original endMarker).isSome then
    match splitOnce original beginMarker with
    | none => none
    | some (pre, rest) =>
      match splitOnce rest endMarker with
      | none => none
      | some (_, post) =>
        some (pre ++ beginMarker ++ '\n' :: snippet ++ endMarker ++ post)
  else
    let lines := pySplitlines original
    match lines.findIdx? isAuthorizeStart with
    | none =>
      some (original ++ '\n' :: beginMarker ++ '\n' :: snippet ++ endMarker ++ ['\n'])
    | some si =>
      match findCloseIdx lines si with
      | none =>
        some (original ++ '\n' :: beginMarker ++ '\n' :: snippet ++ endMarker ++ ['\n'])
      | some ei =>
        let authBlock := (lines.drop si).take (ei + 1 - si)
        let hasPre := authBlock.any fun l => "preprocess".data.isPrefixOf (pyStrip l)
        let leading := lines.getD si []
        let indent := leading.take ((findSub leading "authorize".data).getD 0)
        let ind4 := indent ++ "    ".data
        let newBody :=
          (if hasPre then [] else [ind4 ++ "preprocess".data]) ++
          [ind4 ++ beginMarker] ++
          (pySplitlines (pyStrip snippet)).map (fun ln => ind4 ++ ln) ++
          [ind4 ++ endMarker]
        let injected := leading :: (newBody ++ [lines.getD ei []])
        some (pyJoin (lines.take si ++ injected ++ lines.drop (ei + 1)) ++
              (if pyEndsWithNL original then [] else ['\n']))

/-! ## Label canonicalization -/

/-- Python `str.isalnum` on one character, modelled on the Basic Latin and
Latin-1 ranges (`U+0000`–`U+00FF`).  In Latin-1, `ª µ º ² ³ ¹ ¼ ½ ¾` and the
letters `U+00C0`–`U+00FF` except `×` and `÷` are alphanumeric.  Code points
above `U+00FF` are outside the modelled fragment and mapped to `false`. -/
def py_isalnum (c : Char) : Bool :=
  let n := c.toNat
  if n < 128 then c.isAlphanum
  else if n < 0xC0 then
    n == 0xAA || n == 0xB2 || n == 0xB3 || n == 0xB5 || n == 0xB9 ||
    n == 0xBA || n == 0xBC || n == 0xBD || n == 0xBE
  else if n < 0x100 then !(n == 0xD7) && !(n == 0xF7)
  else false

/-- One character of `sanitize_huntgroup_name`: keep alphanumerics and
`- _ .`, replace everything else with `'_'` (`rotate.py` lines 613-618). -/
def sanitize_step (c : Char) : Char :=
  if py_isalnum c || c ∈ ['-', '_', '.'] then c else '_'

/-- Function `sanitize_huntgroup_name(name)` of `rotate.py` lines 611-620. -/
def sanitize_huntgroup_name (name : List Char) : List Char :=
  let s := name.map sanitize_step
  if s = [] then "hg".data else s

/-- Function `default_huntgroup_for_prefix(prefix)` of `rotate.py` lines 622-626. -/
def default_huntgroup_for_pfx (pref : List Char) : List Char :=
  let base := pyRstrip pref ['-', '_', ' ']
  let base := if base = [] then "prefix".data else base
  sanitize_huntgroup_name (base ++ "devs".data)

/-! ## Raw policy entries, validation and normalization -/

/-- A JSON value that is either a scalar string or a sequence of strings
(the two shapes `normalize_policies` coerces). -/
inductive StrOrList where
  | scalar : List Char → StrOrList
  | seq : List (List Char) → StrOrList
deriving DecidableEq

/-- A raw policy dict from `RADIUS_ACCESS_POLICIES`.  `Option.none` on a
field models absence of the key; `pfx` models the `"prefix"` key. -/
structure RawPolicy where
  pfx : Option (List Char)
  huntgroup : Option (List Char)
  cidrs : Option StrOrList
  nas_identifier_regex : Option StrOrList
  called_station_regex : Option StrOrList
deriving DecidableEq

/-- A normalized policy record as produced by `normalize_policies`.
`pfx` models the `"prefix"` field. -/
structure Policy where
  pfx : List Char
  huntgroup : List Char
  cidrs : List (List Char)
  nas_identifier_regex : List (List Char)
  called_station_regex : List (List Char)
deriving DecidableEq

/-- The fragment of the configuration dict consumed by
`normalize_policies`. -/
structure CfgP where
  access_policies : List RawPolicy
  enforce : Bool
  prefixes : List (List Char)

/-- Diagnostics of the access-policy loop of `validate_config`
(`rotate.py` lines 224-233); the index is the 1-based entry number. -/
inductive PolicyError where
  | missingPfx : Nat → PolicyError
  | noSelector : Nat → PolicyError
deriving DecidableEq

/-- Errors reported by `validate_config` for one policy entry: a falsy
`prefix` value, and the absence of all three selector keys.  Note the source
tests key presence (`k in p`), not non-emptiness. -/
def policyEntryErrors (idx : Nat) (p : RawPolicy) : List PolicyError :=
  (if p.pfx.getD [] = [] then [PolicyError.missingPfx idx] else []) ++
  (if p.cidrs.isSome || p.nas_identifier_regex.isSome || p.called_station_regex.isSome
   then [] else [PolicyError.noSelector idx])

/-- The access-policy validation loop of `validate_config`
(`rotate.py` lines 220-233), enumerating entries from 1. -/
def validate_config_policies (ps : List RawPolicy) : List PolicyError :=
  ((List.range ps.length).zip ps).flatMap fun ip => policyEntryErrors (ip.1 + 1) ip.2

/-- Python `p.get(k) or []` followed by the scalar-to-list coercion of
`normalize_policies` (`rotate.py` lines 650-659). -/
def coerceStrList : Option StrOrList → List (List Char)
  | none => []
  | some (StrOrList.scalar s) => if s = [] then [] else [s]
  | some (StrOrList.seq l) => l

/-- Function `normalize_policies(cfg)` of `rotate.py` lines 628-667 (entries that are
not dicts, which the source skips, are outside the model). -/
def normalize_policies (cfg : CfgP) : List Policy :=
  if cfg.access_policies = [] ∧ cfg.enforce then
    cfg.prefixes.map fun pref =>
      { pfx := pref
        huntgroup := default_huntgroup_for_pfx pref
        cidrs := ["0.0.0.0/32".data]
        nas_identifier_regex := []
        called_station_regex := [] }
  else
    cfg.access_policies.map fun p =>
      let pref := p.pfx.getD []
      let hg := match p.huntgroup with
        | some h => if h = [] then default_huntgroup_for_pfx pref else h
        | none => default_huntgroup_for_pfx pref
      { pfx := pref
        huntgroup := sanitize_huntgroup_name hg
        cidrs := coerceStrList p.cidrs
        nas_identifier_regex := coerceStrList p.nas_identifier_regex
        called_station_regex := coerceStrList p.called_station_regex }

/-! ## IP parsing (the `ipaddress` calls of the renderer and classifier) -/

/-- A parsed network as produced by `ipaddress.ip_network(_, strict=False)`:
the stored address is the network address (host bits cleared). -/
inductive ParsedNet where
  | v4 : Nat → Nat → ParsedNet
  | v6 : Nat → Nat → ParsedNet
deriving DecidableEq

/-- Clear the host bits of a 32-bit address under a prefix length. -/
def mask4 (a p : Nat) : Nat :=
  a / 2 ^ (32 - p) * 2 ^ (32 - p)

/-- Decimal digits of one dotted-quad octet, rejecting empty strings,
non-digits, leading zeros and values above 255 (as `ipaddress` does). -/
def parseOctet (s : List Char) : Option Nat :=
  if s ≠ [] ∧ s.all (·.isDigit) ∧ (s.head? = some '0' → s = ['0']) then
    let v := s.foldl (fun n c => n * 10 + (c.toNat - 48)) 0
    if v ≤ 255 then some v else none
  else none

/-- Parse a dotted-quad IPv4 address string. -/
def parseIPv4 (s : List Char) : Option Nat :=
  match pySplitSep '.' s with
  | [a, b, c, d] => do
    let oa ← parseOctet a
    let ob ← parseOctet b
    let oc ← parseOctet c
    let od ← parseOctet d
    pure (oa * 16777216 + ob * 65536 + oc * 256 + od)
  | _ => none

/-- Decimal prefix length, rejecting empty strings and non-digits (leading
zeros are accepted, as in the library). -/
def parsePrefixLen (s : List Char) : Option Nat :=
  if s ≠ [] ∧ s.all (·.isDigit) then
    some (s.foldl (fun n c => n * 10 + (c.toNat - 48)) 0)
  else none

/-- Library call `ipaddress.ip_network(s, strict=False)`, modelled for dotted-quad IPv4
input with an optional decimal `/len`.  IPv6 textual forms and dotted
netmask forms (`/255.255.255.0`), which the library also accepts, are
outside the modelled fragment (mapped to `none`); `ParsedNet.v6` values
enter the development directly. -/
def ip_network (s : List Char) : Option ParsedNet :=
  match pySplitSep '/' s with
  | [addr] => (parseIPv4 addr).map fun a => ParsedNet.v4 a 32
  | [addr, plen] => do
    let a ← parseIPv4 addr
    let p ← parsePrefixLen plen
    if p ≤ 32 then pure (ParsedNet.v4 (mask4 a p) p) else none
  | _ => none

/-- Library call `ipaddress.ip_address(s)`, modelled for dotted-quad IPv4 input. -/
def ip_address (s : List Char) : Option Nat :=
  parseIPv4 s

/-- Python `str(IPv4Address)`: dotted-quad decimal form. -/
def fmt4 (a : Nat) : List Char :=
  (Nat.repr (a / 16777216 % 256)).data ++ '.' ::
  ((Nat.repr (a / 65536 % 256)).data ++ '.' ::
   ((Nat.repr (a / 256 % 256)).data ++ '.' :: (Nat.repr (a % 256)).data))

/-- Python `str(IPv6Address)` modelled as eight colon-separated lowercase
hex groups (the `::` zero-run compression of the library is not
modelled; only the shape of the emitted rule matters to the claims). -/
def fmt6 (a : Nat) : List Char :=
  pyJoinSep ':' ((List.range 8).map fun i => Nat.toDigits 16 (a / 2 ^ (16 * (7 - i)) % 65536))

/-- Membership of an address in a network (`ipaddr in network`); a version
mismatch raises in Python and is caught to `False` by the caller. -/
def ipInNet (a : Nat) : ParsedNet → Bool
  | ParsedNet.v4 na p => a / 2 ^ (32 - p) == na / 2 ^ (32 - p)
  | ParsedNet.v6 _ _ => false

/-! ## Renderers -/

/-- Python `s.replace('"', '\\"')`. -/
def escQuotes (l : List Char) : List Char :=
  l.flatMap fun c => if c = '"' then ['\\', '"'] else [c]

/-- Python `prefix.replace(".", "\\.")` used on the octet prefix. -/
def escapeDots (l : List Char) : List Char :=
  l.flatMap fun c => if c = '.' then ['\\', '.'] else [c]

/-- Leading aligned octets of an IPv4 network address, joined with dots
(`".".join(parts[:take])` for `take = prefixlen // 8`). -/
def alignedOctets (a p : Nat) : List Char :=
  pyJoinSep '.'
    ([(Nat.repr (a / 16777216 % 256)).data, (Nat.repr (a / 65536 % 256)).data,
      (Nat.repr (a / 256 % 256)).data, (Nat.repr (a % 256)).data].take (p / 8))

/-- The membership rule emitted for one parsed CIDR selector
(`rotate.py` lines 679-693). -/
def render_cidr_rule (hg : List Char) : ParsedNet → List Char
  | ParsedNet.v4 a p =>
    if p = 32 then hg ++ "\tNAS-IP-Address == ".data ++ fmt4 a
    else if p = 8 ∨ p = 16 ∨ p = 24 then
      hg ++ "\tNAS-IP-Address =~ \"".data ++
        ('^' :: escapeDots (alignedOctets a p) ++ ['.']) ++ "\"".data
    else hg ++ "\tNAS-IP-Address == ".data ++ fmt4 a
  | ParsedNet.v6 a _ => hg ++ "\tNAS-IP-Address == ".data ++ fmt6 a

/-- The line emitted for one CIDR selector string, falling back to a raw
regex rule when parsing raises (`rotate.py` lines 675-697). -/
def render_cidr_line (hg net : List Char) : List Char :=
  match ip_network net with
  | some n => render_cidr_rule hg n
  | none => hg ++ "\tNAS-IP-Address =~ \"".data ++ escQuotes net ++ "\"".data

/-- The membership lines emitted for one policy (`rotate.py` lines
673-704). -/
def policy_hg_lines (p : Policy) : List (List Char) :=
  p.cidrs.map (render_cidr_line p.huntgroup) ++
  p.nas_identifier_regex.map (fun rx =>
    p.huntgroup ++ "\tNAS-Identifier =~ \"".data ++ escQuotes rx ++ "\"".data) ++
  p.called_station_regex.map (fun rx =>
    p.huntgroup ++ "\tCalled-Station-Id =~ \"".data ++ escQuotes rx ++ "\"".data)

/-- The timestamped header line of the huntgroups file; `now` models the
formatted `datetime.now()` value. -/
def huntgroupsHeader (now : List Char) : List Char :=
  "# radius-rotate generated huntgroups at ".data ++ now

/-- Function `render_huntgroups_text(policies)` of `rotate.py` lines 669-705.  The
source interpolates `datetime.now()` into its first line; that ambient
clock is made explicit as the `now` parameter. -/
def render_huntgroups_text (now : List Char) (policies : List Policy) : List Char :=
  pyJoin (huntgroupsHeader now ::
          "# Copy/merge into /etc/freeradius/3.0/huntgroups".data ::
          policies.flatMap policy_hg_lines) ++ ['\n']

/-- Regex metacharacters escaped by the renderers (`rotate.py` line 714). -/
def regexMetas : List Char := "^$.|?*+()[]\x7b\x7d\\".data

/-- Backslash-escaping of the username prefix before embedding it in a
regex (`rotate.py` lines 714 and 750). -/
def pref_regex (pref : List Char) : List Char :=
  pref.flatMap fun c => if c ∈ regexMetas then ['\\', c] else [c]

/-- Function `render_unlang_authorize_text(policies)` of `rotate.py` lines
707-718. -/
def render_unlang_authorize_text (policies : List Policy) : List Char :=
  pyJoin ("# radius-rotate: add this block to sites-enabled/default 'authorize' after 'preprocess'".data ::
    policies.flatMap fun p =>
      ["if (&Huntgroup-Name == \"".data ++ p.huntgroup ++
         "\" && &User-Name !~ /^".data ++ pref_regex p.pfx ++ "/) \x7b".data,
       "    reject".data,
       "\x7d".data]) ++ ['\n']

/-- Function `render_vs(pref, vsname)` of `rotate.py` lines 942-960: the
self-contained per-policy virtual server. -/
def render_vs (pref vsname : List Char) : List Char :=
  "# radius-rotate virtual server for prefix '".data ++ pref ++ "'\n".data ++
  "server ".data ++ vsname ++ " \x7b\n".data ++
  "    authorize \x7b\n".data ++
  "        if (&User-Name !~ /^".data ++ pref_regex pref ++ "/) \x7b\n".data ++
  "            reject\n".data ++
  "        \x7d\n".data ++
  "        preprocess\n".data ++
  "        files\n".data ++
  "        sql\n".data ++
  "    \x7d\n".data ++
  "    authenticate \x7b\n".data ++
  "        Auth-Type PAP \x7b\n".data ++
  "            pap\n".data ++
  "        \x7d\n".data ++
  "    \x7d\n".data ++
  "\x7d\n".data

/-! ## A matcher for the emitted regex fragment

Modelled from the spec: POSIX regex semantics, restricted to the fragment
the renderers emit (an optional `'^'` anchor, literal characters,
backslash-escaped characters, and the `'.'` wildcard).  The matching
engine itself lives in FreeRADIUS, outside this repository. -/

/-- One compiled pattern element: a literal character or the `'.'`
wildcard. -/
inductive RItem where
  | lit : Char → RItem
  | anyc : RItem
deriving DecidableEq

/-- Compile the pattern body (everything after the `'^'` anchor) to
elements. -/
def patItems : List Char → List RItem
  | [] => []
  | c :: rest =>
    if c = '\\' then
      match rest with
      | [] => []
      | d :: rest' => RItem.lit d :: patItems rest'
    else if c = '.' then RItem.anyc :: patItems rest
    else RItem.lit c :: patItems rest

/-- One element against one character. -/
def itemMatches : RItem → Char → Bool
  | RItem.lit c, d => c == d
  | RItem.anyc, _ => true

/-- Match a sequence of elements against the start of a string (the rest of
the string is unconstrained, as under an unanchored-right search). -/
def itemsConsume : List RItem → List Char → Bool
  | [], _ => true
  | _ :: _, [] => false
  | it :: its, c :: cs => itemMatches it c && itemsConsume its cs

/-- Unanchored search: try the elements at every start position. -/
def regex_search_from (items : List RItem) : List Char → Bool
  | [] => itemsConsume items []
  | c :: cs => itemsConsume items (c :: cs) || regex_search_from items cs

/-- Whether a pattern of the emitted fragment matches somewhere in `s`
(a leading `'^'` anchors the match at the start). -/
def regex_match_anchored (pat s : List Char) : Bool :=
  match pat with
  | '^' :: body => itemsConsume (patItems body) s
  | body => regex_search_from (patItems body) s

/-! ## The classifier (`assign_nas_servers`, `rotate.py` lines 1364-1419) -/

/-- One row of the `nas` table; `server` is `none` for SQL `NULL`. -/
structure NasRow where
  id : Nat
  nasname : List Char
  shortname : List Char
  server : Option (List Char)
deriving DecidableEq

/-- An oracle for `re.search(rx, s)`: the stdlib regex engine is external
to the translated code, so it enters as a parameter (`search rx s`);
an invalid pattern, which the source catches to no match, is absorbed as
`false`. -/
abbrev ReSearch := List Char → List Char → Bool

/-- Function `ip_in_policy(ip, pol)` of `rotate.py` lines 1383-1394. -/
def ip_in_policy (ip : List Char) (pol : Policy) : Bool :=
  match ip_address ip with
  | none => false
  | some a => pol.cidrs.any fun net =>
      match ip_network net with
      | some n => ipInNet a n
      | none => false

/-- Function `shortname_match(sn, pol)` of `rotate.py` lines 1395-1402. -/
def shortname_match (search : ReSearch) (sn : List Char) (pol : Policy) : Bool :=
  pol.nas_identifier_regex.any fun rx => search rx sn

/-- The per-row match condition of the classifier loop. -/
def nas_policy_match (search : ReSearch) (nasname shortname : List Char) (p : Policy) : Bool :=
  ip_in_policy nasname p || shortname_match search shortname p

/-- The first-match classification loop (`for p in policies: … break`). -/
def classify_nas (search : ReSearch) (nasname shortname : List Char) :
    List Policy → Option (List Char)
  | [] => none
  | p :: ps =>
    if nas_policy_match search nasname shortname p then some p.huntgroup
    else classify_nas search nasname shortname ps

/-- Whether the loop body writes the row back: a truthy target that differs
from the stored `server` value (`if target and r.get("server") != target`). -/
def nas_should_write (search : ReSearch) (policies : List Policy) (r : NasRow) : Bool :=
  match classify_nas search r.nasname r.shortname policies with
  | some t => decide (t ≠ []) && decide (r.server ≠ some t)
  | none => false

/-- The row as left in the table by the loop body. -/
def nas_apply (search : ReSearch) (policies : List Policy) (r : NasRow) : NasRow :=
  match classify_nas search r.nasname r.shortname policies with
  | some t => if t ≠ [] ∧ r.server ≠ some t then { r with server := some t } else r
  | none => r

/-- Function `assign_nas_servers` of `rotate.py` lines 1364-1419: the table rows
after the run together with the number of `UPDATE`s issued (the database
update is modelled as always succeeding). -/
def assign_nas_servers (search : ReSearch) (policies : List Policy)
    (rows : List NasRow) : List NasRow × Nat :=
  rows.foldl (fun acc r =>
    match classify_nas search r.nasname r.shortname policies with
    | some t =>
      if t ≠ [] ∧ r.server ≠ some t then (acc.1 ++ [{ r with server := some t }], acc.2 + 1)
      else (acc.1 ++ [r], acc.2)
    | none => (acc.1 ++ [r], acc.2)) ([], 0)

/-! ## The orchestrator (`import_freeradius_config`)

The filesystem is modelled as a map from paths to file contents; the
`sudo cp`/`tee` helpers become pure state transformers that succeed
whenever the source file exists (their exit codes are ignored or assumed
successful by the claims under study); the external validator and service
controller enter as boolean parameters; `none` models an uncaught
exception. -/

/-- Paths are strings. -/
abbrev FrPath := List Char

/-- The filesystem state. -/
abbrev FS := FrPath → Option (List Char)

/-- Write a file (modelling a successful `sudo tee`). -/
def fsWrite (fs : FS) (p : FrPath) (c : List Char) : FS :=
  fun q => if q = p then some c else fs q

/-- Remove a file (`sudo rm -f`). -/
def fsRemove (fs : FS) (p : FrPath) : FS :=
  fun q => if q = p then none else fs q

/-- Copy a file (`sudo cp -a`); a missing source leaves the state
unchanged, as the source ignores the exit code. -/
def sudoCp (fs : FS) (src dst : FrPath) : FS :=
  match fs src with
  | none => fs
  | some c => fsWrite fs dst c

/-- Backup path `f"{path}.radius-rotate.bak.{ts}"`. -/
def bakPath (p : FrPath) (ts : List Char) : FrPath :=
  p ++ ".radius-rotate.bak.".data ++ ts

/-- Library call `os.path.join` for one component. -/
def pathJoin (a b : FrPath) : FrPath :=
  a ++ '/' :: b

/-- The huntgroups-mode deployment of `import_freeradius_config`
(`rotate.py` lines 889-934): read, inject, back up, write, validate, and
either restore from the backups or optionally restart.  Result: exit code,
final filesystem, and whether a restart was attempted. -/
def fr_import_hg (fs : FS) (huntPath sitePath : FrPath) (ts now : List Char)
    (policies : List Policy) (validatorOk restart restartOk : Bool) :
    Option (Nat × FS × Bool) :=
  let huntTxt := render_huntgroups_text now policies
  let unlang := render_unlang_authorize_text policies
  match fs sitePath with
  | none => some (2, fs, false)
  | some cur =>
    match inject_authorize_block cur unlang with
    | none => none
    | some newDefault =>
      let fs1 := sudoCp fs huntPath (bakPath huntPath ts)
      let fs2 := sudoCp fs1 sitePath (bakPath sitePath ts)
      let fs3 := fsWrite fs2 huntPath huntTxt
      let fs4 := fsWrite fs3 sitePath newDefault
      if validatorOk then
        if restart then
          if restartOk then some (0, fs4, true) else some (1, fs4, true)
        else some (0, fs4, false)
      else
        let fs5 := sudoCp fs4 (bakPath huntPath ts) huntPath
        let fs6 := sudoCp fs5 (bakPath sitePath ts) sitePath
        some (1, fs6, false)

/-- Marker prefix recognized on generated virtual-server files
(`rotate.py` line 973). -/
def vsMarkerPfx : List Char := "# radius-rotate virtual server for prefix ".data

/-- The virtual-server-mode deployment of `import_freeradius_config`
(`rotate.py` lines 936-1002): remove stale generated sites, write one site
file and one enabling symlink per policy (the symlink is modelled as a
file holding the target path), validate, optionally restart.  `saListing`
models the `sudo ls -1 sites-available` output. -/
def fr_import_vs (fs : FS) (base : FrPath) (saListing : List (List Char))
    (policies : List Policy) (validatorOk restart restartOk : Bool) :
    Option (Nat × FS × Bool) :=
  let sa := pathJoin base "sites-available".data
  let se := pathJoin base "sites-enabled".data
  let names := policies.map Policy.huntgroup
  let fs1 := saListing.foldl (fun f fname =>
    let p := pathJoin sa fname
    let content := (f p).getD []
    if vsMarkerPfx.isPrefixOf content && !(names.contains fname) then
      fsRemove (fsRemove f p) (pathJoin se fname)
    else f) fs
  let fs2 := policies.foldl (fun f p =>
    let f' := fsWrite f (pathJoin sa p.huntgroup) (render_vs p.pfx p.huntgroup)
    fsWrite f' (pathJoin se p.huntgroup) (pathJoin sa p.huntgroup)) fs1
  if validatorOk then
    if restart then
      if restartOk then some (0, fs2, true) else some (1, fs2, true)
    else some (0, fs2, false)
  else some (1, fs2, false)

/-- Deployment mode selector (`RADIUS_FR_MODE`). -/
inductive FrMode where
  | huntgroups
  | virtual_server
deriving DecidableEq

/-- Function `import_freeradius_config` of `rotate.py` lines 872-1002, after the
environment checks: normalize, dispatch on mode (an empty policy list
short-circuits with exit code 1 and no file touch). -/
def fr_import_config (mode : FrMode) (cfg : CfgP) (fs : FS)
    (huntPath sitePath base : FrPath) (saListing : List (List Char))
    (ts now : List Char) (validatorOk restart restartOk : Bool) :
    Option (Nat × FS × Bool) :=
  let policies := normalize_policies cfg
  if policies = [] then some (1, fs, false)
  else
    match mode with
    | FrMode.huntgroups =>
      fr_import_hg fs huntPath sitePath ts now policies validatorOk restart restartOk
    | FrMode.virtual_server =>
      fr_import_vs fs base saListing policies validatorOk restart restartOk

/-- Characters of the documented label alphabet `[A-Za-z0-9._-]`. -/
def goodLabelChar (c : Char) : Bool :=
  c.isAlphanum || c = '-' || c = '_' || c = '.'

/-- All characters of a string lie in the ASCII range. -/
def allAscii (l : List Char) : Bool :=
  l.all fun c => c.toNat < 128

/-! ## Occurrence lemmas for `findSub` -/

theorem isPfxOf_iff {a b : List Char} : a.isPrefixOf b = true ↔ a <+: b :=
  List.isPrefixOf_iff_prefix


theorem findSub_some_isPfx {h n : List Char} {i : Nat} (hf : findSub h n = some i) :
    n <+: h.drop i := by
  induction h generalizing i with
  | nil =>
    rw [findSub] at hf
    split at hf
    · rename_i hp
      cases hf
      simpa using isPfxOf_iff.mp hp
    · cases hf
  | cons c t ih =>
    rw [findSub] at hf
    split at hf
    · cases hf
      rename_i hp
      simpa [isPfxOf_iff] using hp
    · rcases Option.map_eq_some'.mp hf with ⟨i', hi', rfl⟩
      simpa using ih hi'

theorem findSub_some_min {h n : List Char} {i : Nat} (hf : findSub h n = some i) :
    ∀ j, j < i → ¬ n <+: h.drop j := by
  induction h generalizing i with
  | nil =>
    rw [findSub] at hf
    split at hf
    · cases hf
      intro j hj
      omega
    · cases hf
  | cons c t ih =>
    rw [findSub] at hf
    split at hf
    · cases hf
      intro j hj
      omega
    · rcases Option.map_eq_some'.mp hf with ⟨i', hi', rfl⟩
      rename_i hp
      intro j hj
      cases j with
      | zero =>
        simpa [isPfxOf_iff] using hp
      | succ j' =>
        simpa using ih hi' j' (by omega)

theorem findSub_eq_none {h n : List Char} (hf : findSub h n = none) :
    ∀ j, ¬ n <+: h.drop j := by
  induction h with
  | nil =>
    rw [findSub] at hf
    split at hf
    · cases hf
    · rename_i hp
      intro j
      simpa [List.drop_nil, isPfxOf_iff] using hp
  | cons c t ih =>
    rw [findSub] at hf
    split at hf
    · cases hf
    · rename_i hp
      have ht : findSub t n = none := by
        cases hft : findSub t n with
        | none => rfl
        | some k => rw [hft] at hf; cases hf
      intro j
      cases j with
      | zero =>
        simpa [isPfxOf_iff] using hp
      | succ j' =>
        simpa using ih ht j'

theorem findSub_isSome_of_occurs {h n : List Char} {j : Nat} (ho : n <+: h.drop j) :
    (findSub h n).isSome := by
  cases hf : findSub h n with
  | none => exact absurd ho (findSub_eq_none hf j)
  | some i => rfl

theorem findSub_eq_none_intro {h n : List Char} (H : ∀ j, ¬ n <+: h.drop j) :
    findSub h n = none := by
  cases hf : findSub h n with
  | none => rfl
  | some i => exact absurd (findSub_some_isPfx hf) (H i)

theorem findSub_le_occurs {h n : List Char} {i j : Nat} (hf : findSub h n = some i)
    (ho : n <+: h.drop j) : i ≤ j := by
  by_contra hlt
  exact findSub_some_min hf j (by omega) ho

theorem findSub_take_eq_none {h n : List Char} {i : Nat} (hn : n ≠ [])
    (hf : findSub h n = some i) : findSub (h.take i) n = none := by
  refine findSub_eq_none_intro fun j hocc => ?_
  by_cases hj : j < i
  · refine findSub_some_min hf j hj ?_
    have h1 : (h.take i).drop j <+: h.drop j := by
      rw [List.drop_take]
      exact ⟨(h.drop j).drop (i - j), List.take_append_drop _ _⟩
    exact hocc.trans h1
  · have : (h.take i).drop j = [] := by
      apply List.drop_eq_nil_of_le
      simp only [List.length_take]
      omega
    rw [this] at hocc
    exact hn (List.prefix_nil.mp hocc)

theorem findSub_decomp {h n : List Char} {i : Nat} (hf : findSub h n = some i) :
    h = h.take i ++ n ++ h.drop (i + n.length) := by
  rcases findSub_some_isPfx hf with ⟨t, ht⟩
  have h2 : h.drop (i + n.length) = t := by
    rw [← List.drop_drop, ← ht, List.drop_left]
  rw [List.append_assoc, h2, ht, List.take_append_drop]

theorem findSub_append_self {a c n : List Char} (hnb : hasNoBorder n)
    (ha : findSub a n = none) : findSub (a ++ n ++ c) n = some a.length := by
  have hocc : n <+: (a ++ n ++ c).drop a.length := by
    rw [List.append_assoc, List.drop_left]
    exact ⟨c, rfl⟩
  have hs := findSub_isSome_of_occurs hocc
  rcases Option.isSome_iff_exists.mp hs with ⟨i, hi⟩
  have hile : i ≤ a.length := findSub_le_occurs hi hocc
  rcases Nat.lt_or_ge i a.length with hlt | hge
  · exfalso
    have hpre : n <+: (a ++ n ++ c).drop i := findSub_some_isPfx hi
    have hdrop : (a ++ n ++ c).drop i = a.drop i ++ (n ++ c) := by
      rw [List.append_assoc, List.drop_append_eq_append_drop,
          Nat.sub_eq_zero_of_le (Nat.le_of_lt hlt), List.drop_zero]
    have hlendrop : (a.drop i).length = a.length - i := List.length_drop i a
    have htake : n = (a.drop i ++ (n ++ c)).take n.length := by
      rw [← hdrop]
      exact List.prefix_iff_eq_take.mp hpre
    by_cases hcase : i + n.length ≤ a.length
    · have hinside : n <+: a.drop i := by
        rw [List.take_append_eq_append_take] at htake
        have hle : n.length ≤ (a.drop i).length := by omega
        rw [Nat.sub_eq_zero_of_le hle, List.take_zero, List.append_nil] at htake
        exact htake ▸ ⟨(a.drop i).drop n.length, List.take_append_drop _ _⟩
      exact findSub_eq_none ha i hinside
    · have hk1 : 0 < a.length - i := by omega
      have hk2 : a.length - i < n.length := by omega
      have htk : (a.drop i).take n.length = a.drop i :=
        List.take_of_length_le (by omega)
      have htearly : (n ++ c).take (n.length - (a.length - i)) =
          n.take (n.length - (a.length - i)) := by
        have hle : n.length - (a.length - i) ≤ n.length := Nat.sub_le _ _
        rw [List.take_append_eq_append_take, Nat.sub_eq_zero_of_le hle,
            List.take_zero, List.append_nil]
      have htake2 : n = a.drop i ++ n.take (n.length - (a.length - i)) := by
        rw [List.take_append_eq_append_take, htk, hlendrop, htearly] at htake
        exact htake
      have hborder : n.drop (a.length - i) = n.take (n.length - (a.length - i)) := by
        conv_lhs => rw [htake2]
        rw [List.drop_append_eq_append_drop, hlendrop, Nat.sub_self, List.drop_zero]
        have h0 : (a.drop i).drop (a.length - i) = [] := List.drop_eq_nil_of_le (by omega)
        rw [h0, List.nil_append]
      exact hnb (a.length - i) hk2 hk1 hborder
  · have : i = a.length := Nat.le_antisymm hile hge
    rw [← this]
    exact hi

theorem splitOnce_inv {h n pre rest : List Char}
    (hs : splitOnce h n = some (pre, rest)) :
    ∃ i, findSub h n = some i ∧ pre = h.take i ∧ rest = h.drop (i + n.length) := by
  unfold splitOnce at hs
  cases hf : findSub h n with
  | none => rw [hf] at hs; cases hs
  | some i =>
    rw [hf] at hs
    cases hs
    exact ⟨i, rfl, rfl, rfl⟩

theorem splitOnce_of_findSub {h n : List Char} {i : Nat} (hf : findSub h n = some i) :
    splitOnce h n = some (h.take i, h.drop (i + n.length)) := by
  unfold splitOnce
  rw [hf]

/-! ## Facts about the two markers -/

theorem beginMarker_noBorder : hasNoBorder beginMarker := by decide

theorem endMarker_noBorder : hasNoBorder endMarker := by decide

theorem endMarker_eq_cons : endMarker = '#' :: " radius-rotate end".data := by decide

theorem beginMarker_eq_cons : beginMarker = '#' :: " radius-rotate begin".data := by decide

/-- An end marker does not occur in `'\n' :: s` when it does not occur in
`s` (the marker does not start with a newline). -/
theorem findSub_newline_cons_endMarker {s : List Char}
    (hs : findSub s endMarker = none) : findSub ('\n' :: s) endMarker = none := by
  refine findSub_eq_none_intro fun j hocc => ?_
  cases j with
  | zero =>
    rcases hocc with ⟨t, ht⟩
    rw [endMarker_eq_cons] at ht
    simp at ht
  | succ j' =>
    exact findSub_eq_none hs j' (by simpa using hocc)

/-! ## `pyJoin` decomposition -/

theorem pyJoin_cons_of_ne_nil {x : List Char} {xs : List (List Char)} (h : xs ≠ []) :
    pyJoin (x :: xs) = x ++ '\n' :: pyJoin xs := by
  cases xs with
  | nil => exact absurd rfl h
  | cons y ys => rfl

theorem pyJoin_decomp1 (L1 L2 : List (List Char)) (a : List Char) :
    ∃ u v, pyJoin (L1 ++ a :: L2) = u ++ a ++ v := by
  induction L1 with
  | nil =>
    cases L2 with
    | nil => exact ⟨[], [], by simp [pyJoin]⟩
    | cons y ys =>
      refine ⟨[], '\n' :: pyJoin (y :: ys), ?_⟩
      rw [List.nil_append, pyJoin_cons_of_ne_nil (by simp)]
      simp
  | cons x L1' ih =>
    rcases ih with ⟨u, v, hu⟩
    refine ⟨x ++ '\n' :: u, v, ?_⟩
    rw [List.cons_append, pyJoin_cons_of_ne_nil (by simp)]
    rw [hu]
    simp

theorem pyJoin_decomp2 (L1 L2 L3 : List (List Char)) (a b : List Char) :
    ∃ u m v, pyJoin (L1 ++ a :: (L2 ++ b :: L3)) = u ++ a ++ m ++ b ++ v := by
  induction L1 with
  | nil =>
    rcases pyJoin_decomp1 L2 L3 b with ⟨u', v', hu'⟩
    refine ⟨[], '\n' :: u', v', ?_⟩
    rw [List.nil_append, pyJoin_cons_of_ne_nil (by simp)]
    rw [hu']
    simp
  | cons x L1' ih =>
    rcases ih with ⟨u, m, v, hu⟩
    refine ⟨x ++ '\n' :: u, m, v, ?_⟩
    rw [List.cons_append, pyJoin_cons_of_ne_nil (by simp)]
    rw [hu]
    simp

/-! ## Branch lemmas for the injector -/

theorem inject_eq_replace {orig s pre rest mid post : List Char}
    (h1 : splitOnce orig beginMarker = some (pre, rest))
    (h2 : splitOnce rest endMarker = some (mid, post)) :
    inject_authorize_block orig s =
      some (pre ++ beginMarker ++ '\n' :: s ++ endMarker ++ post) := by
  rcases splitOnce_inv h1 with ⟨i, hfi, -, hrest⟩
  rcases splitOnce_inv h2 with ⟨j, hfj, -, -⟩
  have hEorig : (findSub orig endMarker).isSome := by
    have hoccr : endMarker <+: rest.drop j := findSub_some_isPfx hfj
    rw [hrest, List.drop_drop] at hoccr
    exact findSub_isSome_of_occurs hoccr
  rcases Option.isSome_iff_exists.mp hEorig with ⟨e, he⟩
  unfold inject_authorize_block
  rw [hfi, he]
  simp only [Option.isSome_some, Bool.and_self, if_true]
  rw [h1]
  simp only []
  rw [h2]

theorem pyJoin_shape_helper (A : List (List Char)) (lead : List Char)
    (P S D : List (List Char)) (i4 close tl : List Char) :
    ∃ u m v,
      pyJoin ((A ++ lead :: ((P ++ [i4 ++ beginMarker] ++ S ++ [i4 ++ endMarker]) ++ [close])) ++ D) ++ tl =
        u ++ beginMarker ++ m ++ endMarker ++ v := by
  have hl : (A ++ lead :: ((P ++ [i4 ++ beginMarker] ++ S ++ [i4 ++ endMarker]) ++ [close])) ++ D =
      (A ++ lead :: P) ++ (i4 ++ beginMarker) :: (S ++ (i4 ++ endMarker) :: (close :: D)) := by
    simp
  rw [hl]
  rcases pyJoin_decomp2 (A ++ lead :: P) S (close :: D) (i4 ++ beginMarker) (i4 ++ endMarker)
    with ⟨u, m, v, hu⟩
  refine ⟨u ++ i4, m ++ i4, v ++ tl, ?_⟩
  rw [hu]
  simp

theorem inject_output_shape {x s y : List Char}
    (h : inject_authorize_block x s = some y) :
    ∃ u m v, y = u ++ beginMarker ++ m ++ endMarker ++ v := by
  unfold inject_authorize_block at h
  split at h
  · rcases hs1 : splitOnce x beginMarker with - | ⟨pre, rest⟩
    · rw [hs1] at h; cases h
    · rw [hs1] at h
      simp only [] at h
      rcases hs2 : splitOnce rest endMarker with - | ⟨mid, post⟩
      · rw [hs2] at h; cases h
      · rw [hs2] at h
        cases h
        exact ⟨pre, '\n' :: s, post, by simp⟩
  · simp only [] at h
    rcases hidx : (pySplitlines x).findIdx? isAuthorizeStart with - | si
    · rw [hidx] at h
      cases h
      exact ⟨x ++ ['\n'], '\n' :: s, ['\n'], by simp⟩
    · rw [hidx] at h
      simp only [] at h
      rcases hclose : findCloseIdx (pySplitlines x) si with - | ei
      · rw [hclose] at h
        cases h
        exact ⟨x ++ ['\n'], '\n' :: s, ['\n'], by simp⟩
      · rw [hclose] at h
        simp only [] at h
        cases h
        exact pyJoin_shape_helper _ _ _ _ _ _ _ _

theorem inject_marker_pair {y s u m v : List Char}
    (hy : y = u ++ beginMarker ++ m ++ endMarker ++ v) :
    ∃ pre post,
      inject_authorize_block y s =
        some (pre ++ beginMarker ++ '\n' :: s ++ endMarker ++ post) ∧
      findSub pre beginMarker = none := by
  subst hy
  have hX : u ++ beginMarker ++ m ++ endMarker ++ v =
      u ++ (beginMarker ++ (m ++ (endMarker ++ v))) := by simp
  have hoccB : beginMarker <+:
      (u ++ beginMarker ++ m ++ endMarker ++ v).drop u.length := by
    rw [hX, List.drop_left]
    exact ⟨m ++ (endMarker ++ v), by simp⟩
  rcases Option.isSome_iff_exists.mp (findSub_isSome_of_occurs hoccB) with ⟨i, hi⟩
  have hile : i ≤ u.length := findSub_le_occurs hi hoccB
  have hoccE : endMarker <+:
      (u ++ beginMarker ++ m ++ endMarker ++ v).drop
        (u.length + beginMarker.length + m.length) := by
    have hX2 : u ++ beginMarker ++ m ++ endMarker ++ v =
        (u ++ beginMarker ++ m) ++ (endMarker ++ v) := by simp
    have hlen : (u ++ beginMarker ++ m).length =
        u.length + beginMarker.length + m.length := by
      simp only [List.length_append]
    rw [hX2, ← hlen, List.drop_left]
    exact ⟨v, rfl⟩
  have hoccE2 : endMarker <+:
      ((u ++ beginMarker ++ m ++ endMarker ++ v).drop (i + beginMarker.length)).drop
        (u.length + m.length - i) := by
    rw [List.drop_drop]
    have harith : i + beginMarker.length + (u.length + m.length - i) =
        u.length + beginMarker.length + m.length := by omega
    rw [harith]
    exact hoccE
  rcases Option.isSome_iff_exists.mp (findSub_isSome_of_occurs hoccE2) with ⟨j, hj⟩
  have h1 := splitOnce_of_findSub hi
  have h2 := splitOnce_of_findSub hj
  refine ⟨(u ++ beginMarker ++ m ++ endMarker ++ v).take i, _,
    inject_eq_replace h1 h2, ?_⟩
  exact findSub_take_eq_none (by decide) hi

theorem inject_replace_fixed {pre post s : List Char}
    (hpre : findSub pre beginMarker = none)
    (hsE : findSub s endMarker = none) :
    inject_authorize_block (pre ++ beginMarker ++ '\n' :: s ++ endMarker ++ post) s =
      some (pre ++ beginMarker ++ '\n' :: s ++ endMarker ++ post) := by
  have hzeq : pre ++ beginMarker ++ '\n' :: s ++ endMarker ++ post =
      pre ++ beginMarker ++ (('\n' :: s) ++ endMarker ++ post) := by simp
  have hfB : findSub (pre ++ beginMarker ++ '\n' :: s ++ endMarker ++ post) beginMarker =
      some pre.length := by
    rw [hzeq]
    exact findSub_append_self beginMarker_noBorder hpre
  have hfE : findSub (('\n' :: s) ++ endMarker ++ post) endMarker =
      some ('\n' :: s).length :=
    findSub_append_self endMarker_noBorder (findSub_newline_cons_endMarker hsE)
  have h1 : splitOnce (pre ++ beginMarker ++ '\n' :: s ++ endMarker ++ post) beginMarker =
      some (pre, ('\n' :: s) ++ endMarker ++ post) := by
    rw [splitOnce_of_findSub hfB]
    congr 1
    refine Prod.ext ?_ ?_
    · show (pre ++ beginMarker ++ '\n' :: s ++ endMarker ++ post).take pre.length = pre
      rw [hzeq, List.append_assoc pre beginMarker, List.take_left]
    · show (pre ++ beginMarker ++ '\n' :: s ++ endMarker ++ post).drop
        (pre.length + beginMarker.length) = ('\n' :: s) ++ endMarker ++ post
      rw [hzeq, ← List.length_append pre beginMarker]
      have : pre ++ beginMarker ++ (('\n' :: s) ++ endMarker ++ post) =
          (pre ++ beginMarker) ++ (('\n' :: s) ++ endMarker ++ post) := rfl
      rw [this, List.drop_left]
  have h2 : splitOnce (('\n' :: s) ++ endMarker ++ post) endMarker =
      some ('\n' :: s, post) := by
    rw [splitOnce_of_findSub hfE]
    congr 1
    refine Prod.ext ?_ ?_
    · show ((('\n' :: s) ++ endMarker ++ post)).take ('\n' :: s).length = '\n' :: s
      rw [List.append_assoc, List.take_left]
    · show ((('\n' :: s) ++ endMarker ++ post)).drop
        (('\n' :: s).length + endMarker.length) = post
      rw [← List.length_append ('\n' :: s) endMarker, List.drop_left]
  have := inject_eq_replace (s := s) h1 h2
  simpa using this

/-- C1: the claim as stated is false: running the injector a second time on
the output of a first run that inserted into the `authorize` block is not
byte-identical to the first run's output — the second run replaces the
re-indented block with the unindented snippet. -/
theorem c1_counterexample :
    inject_authorize_block "authorize \x7b\n\x7d".data "A\n".data =
      some "authorize \x7b\n    preprocess\n    # radius-rotate begin\n    A\n    # radius-rotate end\n\x7d\n".data ∧
    inject_authorize_block "authorize \x7b\n    preprocess\n    # radius-rotate begin\n    A\n    # radius-rotate end\n\x7d\n".data "A\n".data =
      some "authorize \x7b\n    preprocess\n    # radius-rotate begin\nA\n# radius-rotate end\n\x7d\n".data ∧
    "authorize \x7b\n    preprocess\n    # radius-rotate begin\nA\n# radius-rotate end\n\x7d\n".data ≠
      "authorize \x7b\n    preprocess\n    # radius-rotate begin\n    A\n    # radius-rotate end\n\x7d\n".data := by
  refine ⟨by decide, by decide, by decide⟩

/-- C1 (amended): whenever a run of the injector succeeds, every later run
with the same snippet (free of the end marker) succeeds and is byte-identical
to the second run's output: the second run's output is a fixed point of the
injector. -/
theorem c1_injector_stable_from_second_run :
    ∀ x s y : List Char, findSub s endMarker = none →
      inject_authorize_block x s = some y →
      ∃ z, inject_authorize_block y s = some z ∧
        inject_authorize_block z s = some z := by
  intro x s y hsE hxy
  rcases inject_output_shape hxy with ⟨u, m, v, hy⟩
  rcases inject_marker_pair (s := s) hy with ⟨pre, post, hrun2, hpre⟩
  exact ⟨_, hrun2, inject_replace_fixed hpre hsE⟩

/-- C1 witness: the stability theorem applied to a concrete first run. -/
theorem c1_injector_stable_witness :
    findSub "A\n".data endMarker = none ∧
    inject_authorize_block [] "A\n".data =
      some "\n# radius-rotate begin\nA\n# radius-rotate end\n".data ∧
    ∃ z, inject_authorize_block "\n# radius-rotate begin\nA\n# radius-rotate end\n".data "A\n".data = some z ∧
      inject_authorize_block z "A\n".data = some z :=
  ⟨by decide, by decide,
    c1_injector_stable_from_second_run [] "A\n".data _ (by decide) (by decide)⟩

/-- C10: when the text contains both markers but no end marker occurs after
the first begin marker, the injector hits its error branch (the uncaught
`ValueError` of the two-variable unpacking), modelled as `none`. -/
theorem c10_corrupted_markers_error :
    ∀ original snippet pre rest : List Char,
      splitOnce original beginMarker = some (pre, rest) →
      (findSub original endMarker).isSome = true →
      findSub rest endMarker = none →
      inject_authorize_block original snippet = none := by
  intro orig s pre rest h1 hE hrest
  rcases splitOnce_inv h1 with ⟨i, hfi, -, -⟩
  rcases Option.isSome_iff_exists.mp hE with ⟨e, he⟩
  have h2 : splitOnce rest endMarker = none := by
    unfold splitOnce
    rw [hrest]
  unfold inject_authorize_block
  rw [hfi, he]
  simp only [Option.isSome_some, Bool.and_self, if_true]
  rw [h1]
  simp only []
  rw [h2]

/-- C10 witness: a file whose end marker precedes its begin marker makes
the injector raise. -/
theorem c10_corrupted_markers_witness :
    splitOnce (endMarker ++ beginMarker) beginMarker = some (endMarker, []) ∧
    (findSub (endMarker ++ beginMarker) endMarker).isSome = true ∧
    findSub ([] : List Char) endMarker = none ∧
    inject_authorize_block (endMarker ++ beginMarker) "A\n".data = none :=
  ⟨by decide, by decide, by decide,
    c10_corrupted_markers_error (endMarker ++ beginMarker) "A\n".data endMarker []
      (by decide) (by decide) (by decide)⟩

/-- C4: evaluation at the failing input.  The block-insertion path of the
injector deletes the original body of the `authorize` block (the line
`    files` is gone from the output although its own comment promises to
keep it), and it inverts the trailing-newline convention (the input ends
with a newline, the output does not). -/
theorem c4_block_insertion_eval :
    inject_authorize_block "authorize \x7b\n    files\n\x7d\n".data "A\n".data =
      some "authorize \x7b\n    preprocess\n    # radius-rotate begin\n    A\n    # radius-rotate end\n\x7d".data ∧
    pyEndsWithNL "authorize \x7b\n    files\n\x7d\n".data = true ∧
    pyEndsWithNL "authorize \x7b\n    preprocess\n    # radius-rotate begin\n    A\n    # radius-rotate end\n\x7d".data = false ∧
    (findSub "authorize \x7b\n    files\n\x7d\n".data "files".data).isSome = true ∧
    findSub "authorize \x7b\n    preprocess\n    # radius-rotate begin\n    A\n    # radius-rotate end\n\x7d".data "files".data = none := by
  refine ⟨by decide, by decide, by decide, by decide, by decide⟩

/-- C3: the claim as stated is false: the huntgroups renderer interpolates
the current clock into its header line, so two renderings of the same
policy list at different instants differ. -/
theorem c3_counterexample :
    render_huntgroups_text "2024-01-01 00:00:00".data [] ≠
      render_huntgroups_text "2024-01-01 00:00:01".data [] := by
  decide

/-- C3 (amended): the gate-snippet and virtual-server renderers are pure
functions of the policy list, and the huntgroups renderer depends on the
clock only through its header line — everything after the header is
determined by the policy list alone. -/
theorem c3_render_determinism_amended :
    ∀ (t1 t2 : List Char) (ps : List Policy),
      (render_huntgroups_text t1 ps).drop (huntgroupsHeader t1).length =
        (render_huntgroups_text t2 ps).drop (huntgroupsHeader t2).length ∧
      render_unlang_authorize_text ps = render_unlang_authorize_text ps ∧
      ∀ pf vsname : List Char, render_vs pf vsname = render_vs pf vsname := by
  intro t1 t2 ps
  refine ⟨?_, rfl, fun _ _ => rfl⟩
  have h : ∀ t : List Char, render_huntgroups_text t ps =
      huntgroupsHeader t ++
        ('\n' :: (pyJoin ("# Copy/merge into /etc/freeradius/3.0/huntgroups".data ::
          ps.flatMap policy_hg_lines) ++ ['\n'])) := by
    intro t
    unfold render_huntgroups_text
    rw [pyJoin_cons_of_ne_nil (by simp)]
    simp
  rw [h t1, h t2, List.drop_left, List.drop_left]

/-! ## The gate-snippet escaping (C8) -/

theorem patItems_pref_regex (pf : List Char) :
    patItems (pref_regex pf) = pf.map RItem.lit := by
  induction pf with
  | nil => rfl
  | cons c cs ih =>
    unfold pref_regex at ih ⊢
    simp only [List.flatMap_cons]
    by_cases hm : c ∈ regexMetas
    · rw [if_pos hm]
      simp [patItems, ih]
    · rw [if_neg hm]
      have hc1 : c ≠ '\\' := fun h => hm (h ▸ by decide)
      have hc2 : c ≠ '.' := fun h => hm (h ▸ by decide)
      rw [List.singleton_append, patItems.eq_def]
      simp only []
      rw [if_neg hc1, if_neg hc2, ih, List.map_cons]

theorem itemsConsume_lits (pf s : List Char) :
    itemsConsume (pf.map RItem.lit) s = pf.isPrefixOf s := by
  induction pf generalizing s with
  | nil => cases s <;> rfl
  | cons c cs ih =>
    cases s with
    | nil => rfl
    | cons d ds => simp [itemsConsume, itemMatches, List.isPrefixOf, ih]

/-- C8: the gate renderer embeds the backslash-escaped prefix after the
`'^'` anchor, and the resulting pattern matches exactly the strings that
literally start with the prefix; in particular `lab.guest+` matches its
literal form and rejects `labXguest…`. -/
theorem c8_gate_escaping :
    (∀ pf s : List Char,
      regex_match_anchored ('^' :: pref_regex pf) s = pf.isPrefixOf s) ∧
    (∀ pf hg cs ns csr,
      render_unlang_authorize_text [⟨pf, hg, cs, ns, csr⟩] =
        pyJoin ["# radius-rotate: add this block to sites-enabled/default 'authorize' after 'preprocess'".data,
          "if (&Huntgroup-Name == \"".data ++ hg ++ "\" && &User-Name !~ /^".data ++
            pref_regex pf ++ "/) \x7b".data,
          "    reject".data, "\x7d".data] ++ ['\n']) ∧
    regex_match_anchored ('^' :: pref_regex "lab.guest+".data) "lab.guest+abc".data = true ∧
    regex_match_anchored ('^' :: pref_regex "lab.guest+".data) "labXguest+abc".data = false := by
  refine ⟨?_, ?_, by decide, by decide⟩
  · intro pf s
    show itemsConsume (patItems (pref_regex pf)) s = pf.isPrefixOf s
    rw [patItems_pref_regex, itemsConsume_lits]
  · intro pf hg cs ns csr
    rfl

/-! ## Label alphabet (C6) -/

theorem sanitize_ne_nil (s : List Char) : sanitize_huntgroup_name s ≠ [] := by
  unfold sanitize_huntgroup_name
  simp only []
  split
  · decide
  · assumption

theorem sanitize_step_good {c : Char} (hc : c.toNat < 128) :
    goodLabelChar (sanitize_step c) = true := by
  unfold sanitize_step
  split
  · rename_i h
    rcases Bool.or_eq_true_iff.mp h with h1 | h2
    · unfold py_isalnum at h1
      rw [if_pos hc] at h1
      unfold goodLabelChar
      rw [h1]
      rfl
    · have h3 : c = '-' ∨ c = '_' ∨ c = '.' := by simpa using h2
      unfold goodLabelChar
      rcases h3 with rfl | rfl | rfl <;> decide
  · decide

theorem sanitize_good {s : List Char} (hs : allAscii s = true) :
    (sanitize_huntgroup_name s).all goodLabelChar = true := by
  unfold allAscii at hs
  unfold sanitize_huntgroup_name
  simp only []
  split
  · decide
  · rw [List.all_eq_true]
    intro c hc
    rcases List.mem_map.mp hc with ⟨a, ha, rfl⟩
    have := List.all_eq_true.mp hs a ha
    exact sanitize_step_good (by simpa using this)

theorem sanitize_step_ascii {c : Char} (hc : c.toNat < 128) :
    (sanitize_step c).toNat < 128 := by
  unfold sanitize_step
  split
  · exact hc
  · decide

theorem sanitize_ascii {s : List Char} (hs : allAscii s = true) :
    allAscii (sanitize_huntgroup_name s) = true := by
  unfold allAscii at hs ⊢
  unfold sanitize_huntgroup_name
  simp only []
  split
  · decide
  · rw [List.all_eq_true]
    intro c hc
    rcases List.mem_map.mp hc with ⟨a, ha, rfl⟩
    have := List.all_eq_true.mp hs a ha
    simpa using sanitize_step_ascii (by simpa using this)

theorem append_ascii {a b : List Char} (ha : allAscii a = true) (hb : allAscii b = true) :
    allAscii (a ++ b) = true := by
  unfold allAscii at *
  rw [List.all_append, ha, hb]
  rfl

theorem rstrip_ascii {l set : List Char} (hl : allAscii l = true) :
    allAscii (pyRstrip l set) = true := by
  unfold allAscii at *
  rw [List.all_eq_true] at *
  intro c hc
  apply hl
  unfold pyRstrip at hc
  rw [List.mem_reverse] at hc
  have := List.dropWhile_sublist (l := l.reverse) (p := fun c => decide (c ∈ set))
  rw [← List.mem_reverse]
  exact this.mem hc

theorem default_hg_ne_nil (s : List Char) : default_huntgroup_for_pfx s ≠ [] := by
  unfold default_huntgroup_for_pfx
  exact sanitize_ne_nil _

theorem default_hg_base_ascii {s : List Char} (hs : allAscii s = true) :
    allAscii ((if pyRstrip s ['-', '_', ' '] = [] then "prefix".data
               else pyRstrip s ['-', '_', ' ']) ++ "devs".data) = true := by
  split
  · exact append_ascii (by decide) (by decide)
  · exact append_ascii (rstrip_ascii hs) (by decide)

theorem default_hg_good {s : List Char} (hs : allAscii s = true) :
    (default_huntgroup_for_pfx s).all goodLabelChar = true := by
  unfold default_huntgroup_for_pfx
  exact sanitize_good (default_hg_base_ascii hs)

theorem default_hg_ascii {s : List Char} (hs : allAscii s = true) :
    allAscii (default_huntgroup_for_pfx s) = true := by
  unfold default_huntgroup_for_pfx
  exact sanitize_ascii (default_hg_base_ascii hs)

/-- C6: the claim as stated is false: Python `str.isalnum` accepts
non-ASCII alphanumerics, so canonicalization passes characters outside
`[A-Za-z0-9._-]` through unchanged — e.g. the input `é`. -/
theorem c6_counterexample :
    sanitize_huntgroup_name ['é'] = ['é'] ∧
    (sanitize_huntgroup_name ['é']).all goodLabelChar = false := by
  refine ⟨by decide, by decide⟩

/-- C6 (amended): canonicalization always yields a non-empty label, and for
ASCII input the label lies in `[A-Za-z0-9._-]`; every policy emitted by
normalization from ASCII configuration carries such a label (non-ASCII
alphanumerics pass through unchanged, as the counterexample shows). -/
theorem c6_label_alphabet_amended :
    ∀ s : List Char,
      (sanitize_huntgroup_name s ≠ [] ∧
        (allAscii s = true → (sanitize_huntgroup_name s).all goodLabelChar = true)) ∧
      (default_huntgroup_for_pfx s ≠ [] ∧
        (allAscii s = true → (default_huntgroup_for_pfx s).all goodLabelChar = true)) ∧
      ∀ cfg : CfgP,
        (∀ pf ∈ cfg.prefixes, allAscii pf = true) →
        (∀ p ∈ cfg.access_policies,
          allAscii (p.pfx.getD []) = true ∧ allAscii (p.huntgroup.getD []) = true) →
        ∀ q ∈ normalize_policies cfg,
          q.huntgroup ≠ [] ∧ q.huntgroup.all goodLabelChar = true := by
  intro s
  refine ⟨⟨sanitize_ne_nil s, fun hs => sanitize_good hs⟩,
    ⟨default_hg_ne_nil s, fun hs => default_hg_good hs⟩, ?_⟩
  intro cfg hpf hpol q hq
  unfold normalize_policies at hq
  split at hq
  · rcases List.mem_map.mp hq with ⟨pf, hpf2, rfl⟩
    exact ⟨default_hg_ne_nil pf, default_hg_good (hpf pf hpf2)⟩
  · rcases List.mem_map.mp hq with ⟨p, hp2, rfl⟩
    simp only []
    constructor
    · exact sanitize_ne_nil _
    · rcases hpol p hp2 with ⟨hpfx, hhg⟩
      cases hhg2 : p.huntgroup with
      | none =>
        simp only []
        exact sanitize_good (default_hg_ascii hpfx)
      | some h =>
        simp only []
        by_cases hnil : h = []
        · rw [if_pos hnil]
          exact sanitize_good (default_hg_ascii hpfx)
        · rw [if_neg hnil]
          rw [hhg2] at hhg
          simp only [Option.getD_some] at hhg
          exact sanitize_good hhg

/-- C6 witness: the amended theorem at a concrete ASCII prefix and a
concrete configuration. -/
theorem c6_label_alphabet_witness :
    (sanitize_huntgroup_name "wifi-".data ≠ [] ∧
      (sanitize_huntgroup_name "wifi-".data).all goodLabelChar = true) ∧
    ∀ q ∈ normalize_policies ⟨[], true, ["wifi-".data]⟩,
      q.huntgroup ≠ [] ∧ q.huntgroup.all goodLabelChar = true :=
  ⟨⟨(c6_label_alphabet_amended "wifi-".data).1.1,
    (c6_label_alphabet_amended "wifi-".data).1.2 (by decide)⟩,
   (c6_label_alphabet_amended "wifi-".data).2.2 ⟨[], true, ["wifi-".data]⟩
     (by decide) (by simp)⟩

/-- C5: the claim as stated is false: an entry whose three selector keys
are present but bound to empty lists has all selector categories empty,
yet validation reports no error and normalization emits the entry. -/
theorem c5_counterexample :
    validate_config_policies
      [⟨some "a".data, none, some (StrOrList.seq []), some (StrOrList.seq []),
        some (StrOrList.seq [])⟩] = [] ∧
    normalize_policies
      ⟨[⟨some "a".data, none, some (StrOrList.seq []), some (StrOrList.seq []),
        some (StrOrList.seq [])⟩], true, []⟩ =
      [⟨"a".data, "adevs".data, [], [], []⟩] := by
  refine ⟨by decide, by decide⟩

/-- C5 (amended): the no-selector diagnostic is reported exactly when none
of the three selector keys is present; an entry with present-but-empty
selector lists passes, and a normalized policy with empty CIDR and
identifier selector lists matches no device (it is never treated as
matching every device). -/
theorem c5_no_selector_amended :
    ∀ p : RawPolicy,
      (PolicyError.noSelector 1 ∈ validate_config_policies [p] ↔
        p.cidrs = none ∧ p.nas_identifier_regex = none ∧
          p.called_station_regex = none) ∧
      ∀ q : Policy, q.cidrs = [] → q.nas_identifier_regex = [] →
        ∀ (search : ReSearch) (nasname shortname : List Char),
          nas_policy_match search nasname shortname q = false := by
  intro p
  constructor
  · have hval : validate_config_policies [p] = policyEntryErrors 1 p := by
      have hr : List.range 1 = [0] := rfl
      simp [validate_config_policies, hr]
    rw [hval]
    unfold policyEntryErrors
    constructor
    · intro h
      rcases List.mem_append.mp h with h1 | h2
      · exfalso
        revert h1
        split <;> simp
      · revert h2
        split
        · simp
        · rename_i hB
          intro _
          have h1 : p.cidrs = none := by
            cases hx : p.cidrs with
            | none => rfl
            | some w => exact absurd (by rw [hx]; simp) hB
          have h2 : p.nas_identifier_regex = none := by
            cases hx : p.nas_identifier_regex with
            | none => rfl
            | some w => exact absurd (by rw [hx]; simp) hB
          have h3 : p.called_station_regex = none := by
            cases hx : p.called_station_regex with
            | none => rfl
            | some w => exact absurd (by rw [hx]; simp) hB
          exact ⟨h1, h2, h3⟩
    · rintro ⟨h1, h2, h3⟩
      apply List.mem_append.mpr
      right
      rw [h1, h2, h3]
      simp
  · intro q hc hn search nasname shortname
    unfold nas_policy_match ip_in_policy shortname_match
    rw [hc, hn]
    cases ip_address nasname <;> simp

/-- C5 witness: a key-free entry is reported, and an empty-selector policy
matches no device even under an always-matching identifier oracle. -/
theorem c5_no_selector_witness :
    PolicyError.noSelector 1 ∈
      validate_config_policies [⟨some "a".data, none, none, none, none⟩] ∧
    nas_policy_match (fun _ _ => true) "10.0.0.1".data "ap1".data
      ⟨"a".data, "adevs".data, [], [], []⟩ = false :=
  ⟨(c5_no_selector_amended ⟨some "a".data, none, none, none, none⟩).1.mpr
      ⟨rfl, rfl, rfl⟩,
   (c5_no_selector_amended ⟨some "a".data, none, none, none, none⟩).2
      ⟨"a".data, "adevs".data, [], [], []⟩ rfl rfl
      (fun _ _ => true) "10.0.0.1".data "ap1".data⟩

/-- C7: CIDR rendering: a `/32` selector renders an exact-address rule, a
byte-aligned selector renders the prefix regex built from the leading
aligned octets (`10.0.0.0/24` matches `10.0.0.5` and `10.0.0.255` but not
`10.0.1.1`), and every other IPv4 mask as well as every IPv6 selector
renders an exact-network-address rule. -/
theorem c7_cidr_rendering :
    (∀ (hg : List Char) (a : Nat), render_cidr_rule hg (ParsedNet.v4 a 32) =
      hg ++ "\tNAS-IP-Address == ".data ++ fmt4 a) ∧
    (∀ (hg : List Char) (a p : Nat), p = 8 ∨ p = 16 ∨ p = 24 →
      render_cidr_rule hg (ParsedNet.v4 a p) =
        hg ++ "\tNAS-IP-Address =~ \"".data ++
          ('^' :: escapeDots (alignedOctets a p) ++ ['.']) ++ "\"".data) ∧
    (∀ (hg : List Char) (a p : Nat), p ≠ 32 → ¬(p = 8 ∨ p = 16 ∨ p = 24) →
      render_cidr_rule hg (ParsedNet.v4 a p) =
        hg ++ "\tNAS-IP-Address == ".data ++ fmt4 a) ∧
    (∀ (hg : List Char) (a p : Nat), render_cidr_rule hg (ParsedNet.v6 a p) =
      hg ++ "\tNAS-IP-Address == ".data ++ fmt6 a) ∧
    ip_network "10.0.0.0/24".data = some (ParsedNet.v4 167772160 24) ∧
    render_cidr_line "hg".data "10.0.0.0/24".data =
      "hg".data ++ "\tNAS-IP-Address =~ \"".data ++ "^10\\.0\\.0.".data ++ "\"".data ∧
    regex_match_anchored "^10\\.0\\.0.".data "10.0.0.5".data = true ∧
    regex_match_anchored "^10\\.0\\.0.".data "10.0.0.255".data = true ∧
    regex_match_anchored "^10\\.0\\.0.".data "10.0.1.1".data = false ∧
    ip_network "10.0.0.5/32".data = some (ParsedNet.v4 167772165 32) ∧
    render_cidr_line "hg".data "10.0.0.5/32".data =
      "hg".data ++ "\tNAS-IP-Address == ".data ++ "10.0.0.5".data := by
  refine ⟨?_, ?_, ?_, ?_, by decide, by decide, by decide, by decide, by decide,
    by decide, by decide⟩
  · intro hg a
    rfl
  · intro hg a p hp
    unfold render_cidr_rule
    simp only []
    rw [if_neg (by omega : ¬p = 32), if_pos hp]
  · intro hg a p h32 hal
    unfold render_cidr_rule
    simp only []
    rw [if_neg h32, if_neg hal]
  · intro hg a p
    rfl

/-- C7 witness: the aligned-octet and degraded branches applied at concrete
prefix lengths. -/
theorem c7_cidr_rendering_witness :
    render_cidr_rule "hg".data (ParsedNet.v4 167772160 24) =
      "hg".data ++ "\tNAS-IP-Address =~ \"".data ++
        ('^' :: escapeDots (alignedOctets 167772160 24) ++ ['.']) ++ "\"".data ∧
    render_cidr_rule "hg".data (ParsedNet.v4 167772160 30) =
      "hg".data ++ "\tNAS-IP-Address == ".data ++ fmt4 167772160 :=
  ⟨c7_cidr_rendering.2.1 "hg".data 167772160 24 (Or.inr (Or.inr rfl)),
   c7_cidr_rendering.2.2.1 "hg".data 167772160 30 (by decide) (by decide)⟩

theorem assign_nas_aux (search : ReSearch) (ps : List Policy) :
    ∀ (rows : List NasRow) (acc : List NasRow × Nat),
      rows.foldl (fun acc r =>
        match classify_nas search r.nasname r.shortname ps with
        | some t =>
          if t ≠ [] ∧ r.server ≠ some t then
            (acc.1 ++ [{ r with server := some t }], acc.2 + 1)
          else (acc.1 ++ [r], acc.2)
        | none => (acc.1 ++ [r], acc.2)) acc =
      (acc.1 ++ rows.map (nas_apply search ps),
       acc.2 + (rows.filter (nas_should_write search ps)).length) := by
  intro rows
  induction rows with
  | nil =>
    intro acc
    simp
  | cons r rows ih =>
    intro acc
    rw [List.foldl_cons, ih]
    cases hcl : classify_nas search r.nasname r.shortname ps with
    | none =>
      simp only [hcl]
      rw [List.map_cons, List.filter_cons]
      have ha : nas_apply search ps r = r := by
        unfold nas_apply
        rw [hcl]
      have hw : nas_should_write search ps r = false := by
        unfold nas_should_write
        rw [hcl]
      rw [ha, hw]
      simp
    | some t =>
      simp only [hcl]
      rw [List.map_cons, List.filter_cons]
      by_cases hc : t ≠ [] ∧ r.server ≠ some t
      · have ha : nas_apply search ps r = { r with server := some t } := by
          unfold nas_apply
          rw [hcl]
          simp only []
          rw [if_pos hc]
        have hw : nas_should_write search ps r = true := by
          unfold nas_should_write
          rw [hcl]
          simp only []
          rcases hc with ⟨hc1, hc2⟩
          simp [hc1, hc2]
        rw [if_pos hc, ha, hw]
        simp [Nat.add_comm, Nat.add_assoc, Nat.add_left_comm]
      · have ha : nas_apply search ps r = r := by
          unfold nas_apply
          rw [hcl]
          simp only []
          rw [if_neg hc]
        have hw : nas_should_write search ps r = false := by
          unfold nas_should_write
          rw [hcl]
          simp only []
          rw [Classical.not_and_iff_or_not_not] at hc
          rcases hc with hc1 | hc2
          · simp [Classical.not_not.mp hc1]
          · simp [Classical.not_not.mp hc2]
        rw [if_neg hc, ha, hw]
        simp

/-- C9: classification returns the label of the first policy (in list
order) matching the device by CIDR membership or identifier pattern —
the earlier of two matching policies wins — and reconciliation rewrites
exactly the rows whose stored label differs from a non-empty assigned
label, counting exactly those writes. -/
theorem c9_classifier_precedence :
    (∀ (search : ReSearch) (nasname shortname : List Char) (ps : List Policy),
      classify_nas search nasname shortname ps =
        (ps.find? (nas_policy_match search nasname shortname)).map Policy.huntgroup) ∧
    (∀ (search : ReSearch) (nasname shortname : List Char)
        (ps1 : List Policy) (p : Policy) (ps2 : List Policy),
      nas_policy_match search nasname shortname p = true →
      (∀ q ∈ ps1, nas_policy_match search nasname shortname q = false) →
      classify_nas search nasname shortname (ps1 ++ p :: ps2) = some p.huntgroup) ∧
    ∀ (search : ReSearch) (ps : List Policy) (rows : List NasRow),
      assign_nas_servers search ps rows =
        (rows.map (nas_apply search ps),
         (rows.filter (nas_should_write search ps)).length) := by
  refine ⟨?_, ?_, ?_⟩
  · intro search nasname shortname ps
    induction ps with
    | nil => rfl
    | cons p ps ih =>
      unfold classify_nas
      rw [List.find?_cons]
      by_cases h : nas_policy_match search nasname shortname p
      · rw [if_pos h, h]
        rfl
      · rw [if_neg h, ih]
        have hb : nas_policy_match search nasname shortname p = false :=
          Bool.not_eq_true _ ▸ by simpa using h
        rw [hb]
  · intro search nasname shortname ps1 p ps2 hp hnone
    induction ps1 with
    | nil =>
      rw [List.nil_append]
      unfold classify_nas
      rw [if_pos hp]
    | cons q qs ih =>
      rw [List.cons_append]
      unfold classify_nas
      rw [if_neg]
      · exact ih fun x hx => hnone x (List.mem_cons_of_mem q hx)
      · rw [hnone q (List.mem_cons_self q qs)]
        simp
  · intro search ps rows
    unfold assign_nas_servers
    rw [assign_nas_aux]
    simp

/-- C9 witness: with two policies both matching one device, the earlier
label wins; the reconciliation characterization applied to one row. -/
theorem c9_classifier_precedence_witness :
    nas_policy_match (fun _ _ => true) "10.0.0.1".data "ap1".data
      ⟨"a".data, "hga".data, [], ["x".data], []⟩ = true ∧
    classify_nas (fun _ _ => true) "10.0.0.1".data "ap1".data
      ([] ++ ⟨"a".data, "hga".data, [], ["x".data], []⟩ ::
        [⟨"b".data, "hgb".data, [], ["x".data], []⟩]) = some "hga".data ∧
    assign_nas_servers (fun _ _ => true)
      [⟨"a".data, "hga".data, [], ["x".data], []⟩] [⟨1, "10.0.0.1".data, "ap1".data, none⟩] =
      ([⟨1, "10.0.0.1".data, "ap1".data, none⟩].map
          (nas_apply (fun _ _ => true) [⟨"a".data, "hga".data, [], ["x".data], []⟩]),
       ([⟨1, "10.0.0.1".data, "ap1".data, none⟩].filter
          (nas_should_write (fun _ _ => true) [⟨"a".data, "hga".data, [], ["x".data], []⟩])).length) :=
  ⟨by decide,
   c9_classifier_precedence.2.1 (fun _ _ => true) "10.0.0.1".data "ap1".data
     [] ⟨"a".data, "hga".data, [], ["x".data], []⟩
     [⟨"b".data, "hgb".data, [], ["x".data], []⟩] (by decide) (by simp),
   c9_classifier_precedence.2.2 (fun _ _ => true)
     [⟨"a".data, "hga".data, [], ["x".data], []⟩]
     [⟨1, "10.0.0.1".data, "ap1".data, none⟩]⟩

/-! ## Rollback (C2) -/

theorem fsWrite_at (f : FS) (p : FrPath) (c : List Char) : fsWrite f p c p = some c := by
  unfold fsWrite
  rw [if_pos rfl]

theorem fsWrite_ne {q p : FrPath} (f : FS) (c : List Char) (h : q ≠ p) :
    fsWrite f p c q = f q := by
  unfold fsWrite
  rw [if_neg h]

theorem bakPath_ne_self (p : FrPath) (ts : List Char) : bakPath p ts ≠ p := by
  intro h
  have := congrArg List.length h
  simp [bakPath, List.length_append] at this

/-- C2 (amended): on validation failure in huntgroups mode both target
files are restored byte-for-byte from their just-created backups, the
backups remain with the pre-run contents, no other path changes, the run
returns a failed exit code and no restart is attempted; in virtual-server
mode a failed validation also returns failure with no restart, but no
backups exist and written files are not restored (see the
counterexample). -/
theorem c2_rollback_amended :
    (∀ (fs : FS) (huntPath sitePath : FrPath) (ts now : List Char)
        (ps : List Policy) (restart restartOk : Bool) (h0 d0 nd : List Char),
      fs huntPath = some h0 →
      fs sitePath = some d0 →
      inject_authorize_block d0 (render_unlang_authorize_text ps) = some nd →
      huntPath ≠ sitePath →
      bakPath huntPath ts ≠ sitePath →
      bakPath sitePath ts ≠ huntPath →
      bakPath huntPath ts ≠ bakPath sitePath ts →
      ∃ fs', fr_import_hg fs huntPath sitePath ts now ps false restart restartOk =
          some (1, fs', false) ∧
        fs' huntPath = some h0 ∧
        fs' sitePath = some d0 ∧
        fs' (bakPath huntPath ts) = some h0 ∧
        fs' (bakPath sitePath ts) = some d0 ∧
        ∀ q, q ≠ huntPath → q ≠ sitePath → q ≠ bakPath huntPath ts →
          q ≠ bakPath sitePath ts → fs' q = fs q) ∧
    ∀ (fs : FS) (base : FrPath) (saListing : List (List Char))
        (ps : List Policy) (restart restartOk : Bool),
      ∃ fs', fr_import_vs fs base saListing ps false restart restartOk =
        some (1, fs', false) := by
  constructor
  · intro fs huntPath sitePath ts now ps restart restartOk h0 d0 nd
      hhunt hsite hinj hns hbhs hbsh hbb
    have hbh_hunt : bakPath huntPath ts ≠ huntPath := bakPath_ne_self _ _
    have hbs_site : bakPath sitePath ts ≠ sitePath := bakPath_ne_self _ _
    have e1 : sudoCp fs huntPath (bakPath huntPath ts) =
        fsWrite fs (bakPath huntPath ts) h0 := by
      unfold sudoCp
      rw [hhunt]
    have e3 : sudoCp (fsWrite fs (bakPath huntPath ts) h0) sitePath (bakPath sitePath ts) =
        fsWrite (fsWrite fs (bakPath huntPath ts) h0) (bakPath sitePath ts) d0 := by
      unfold sudoCp
      rw [fsWrite_ne _ _ (fun h => hbhs h.symm), hsite]
    have e4 : fsWrite (fsWrite (fsWrite (fsWrite fs (bakPath huntPath ts) h0)
          (bakPath sitePath ts) d0) huntPath (render_huntgroups_text now ps)) sitePath nd
        (bakPath huntPath ts) = some h0 := by
      rw [fsWrite_ne _ _ hbhs, fsWrite_ne _ _ hbh_hunt, fsWrite_ne _ _ hbb, fsWrite_at]
    have e5 : sudoCp (fsWrite (fsWrite (fsWrite (fsWrite fs (bakPath huntPath ts) h0)
          (bakPath sitePath ts) d0) huntPath (render_huntgroups_text now ps)) sitePath nd)
        (bakPath huntPath ts) huntPath =
        fsWrite (fsWrite (fsWrite (fsWrite (fsWrite fs (bakPath huntPath ts) h0)
          (bakPath sitePath ts) d0) huntPath (render_huntgroups_text now ps)) sitePath nd)
          huntPath h0 := by
      unfold sudoCp
      rw [e4]
    have e6 : fsWrite (fsWrite (fsWrite (fsWrite (fsWrite fs (bakPath huntPath ts) h0)
          (bakPath sitePath ts) d0) huntPath (render_huntgroups_text now ps)) sitePath nd)
          huntPath h0 (bakPath sitePath ts) = some d0 := by
      rw [fsWrite_ne _ _ hbsh, fsWrite_ne _ _ hbs_site, fsWrite_ne _ _ hbsh, fsWrite_at]
    have e7 : sudoCp (fsWrite (fsWrite (fsWrite (fsWrite (fsWrite fs (bakPath huntPath ts) h0)
          (bakPath sitePath ts) d0) huntPath (render_huntgroups_text now ps)) sitePath nd)
          huntPath h0) (bakPath sitePath ts) sitePath =
        fsWrite (fsWrite (fsWrite (fsWrite (fsWrite (fsWrite fs (bakPath huntPath ts) h0)
          (bakPath sitePath ts) d0) huntPath (render_huntgroups_text now ps)) sitePath nd)
          huntPath h0) sitePath d0 := by
      unfold sudoCp
      rw [e6]
    refine ⟨fsWrite (fsWrite (fsWrite (fsWrite (fsWrite (fsWrite fs (bakPath huntPath ts) h0)
        (bakPath sitePath ts) d0) huntPath (render_huntgroups_text now ps)) sitePath nd)
        huntPath h0) sitePath d0, ?_, ?_, ?_, ?_, ?_, ?_⟩
    · unfold fr_import_hg
      rw [hsite]
      simp only []
      rw [hinj]
      simp only []
      rw [if_neg Bool.false_ne_true]
      rw [e1, e3, e5, e7]
    · rw [fsWrite_ne _ _ hns, fsWrite_at]
    · rw [fsWrite_at]
    · rw [fsWrite_ne _ _ hbhs, fsWrite_ne _ _ hbh_hunt, e4]
    · rw [fsWrite_ne _ _ hbs_site, e6]
    · intro q hq1 hq2 hq3 hq4
      rw [fsWrite_ne _ _ hq2, fsWrite_ne _ _ hq1, fsWrite_ne _ _ hq2, fsWrite_ne _ _ hq1,
          fsWrite_ne _ _ hq4, fsWrite_ne _ _ hq3]
  · intro fs base saListing ps restart restartOk
    unfold fr_import_vs
    simp only []
    rw [if_neg Bool.false_ne_true]
    exact ⟨_, rfl⟩

/-- C2: the claim as stated is false: in virtual-server mode the
orchestrator takes no backups and does not restore on validation failure —
the target site file still holds the newly rendered unit, not its pre-run
content, when the run returns its failed result. -/
theorem c2_counterexample :
    (fr_import_config FrMode.virtual_server
        ⟨[⟨some "w".data, some "hg1".data, some (StrOrList.seq ["10.0.0.0/24".data]),
          none, none⟩], false, []⟩
        (fun p => if p = "/b/sites-available/hg1".data then some "old".data else none)
        "/h".data "/s".data "/b".data [] "t".data "n".data false false false).map
        (fun r => (r.1, r.2.1 "/b/sites-available/hg1".data, r.2.2)) =
      some (1, some (render_vs "w".data "hg1".data), false) ∧
    render_vs "w".data "hg1".data ≠ "old".data := by
  refine ⟨rfl, by decide⟩

/-- C2 witness: the huntgroups-mode rollback applied to a concrete world
with one policy and an always-failing validator. -/
theorem c2_rollback_witness :
    (fun p => if p = "/h".data then some "H".data
              else if p = "/s".data then some "S".data else none : FS) "/h".data =
      some "H".data ∧
    (fun p => if p = "/h".data then some "H".data
              else if p = "/s".data then some "S".data else none : FS) "/s".data =
      some "S".data ∧
    inject_authorize_block "S".data
      (render_unlang_authorize_text [⟨"w".data, "hg1".data, [], [], []⟩]) =
      some ("S".data ++ '\n' :: beginMarker ++
        '\n' :: render_unlang_authorize_text [⟨"w".data, "hg1".data, [], [], []⟩] ++
        endMarker ++ ['\n']) ∧
    ∃ fs', fr_import_hg
        (fun p => if p = "/h".data then some "H".data
                  else if p = "/s".data then some "S".data else none)
        "/h".data "/s".data "t".data "n".data
        [⟨"w".data, "hg1".data, [], [], []⟩] false false false =
        some (1, fs', false) ∧
      fs' "/h".data = some "H".data ∧
      fs' "/s".data = some "S".data ∧
      fs' (bakPath "/h".data "t".data) = some "H".data ∧
      fs' (bakPath "/s".data "t".data) = some "S".data ∧
      ∀ q, q ≠ "/h".data → q ≠ "/s".data → q ≠ bakPath "/h".data "t".data →
        q ≠ bakPath "/s".data "t".data →
        fs' q = (fun p => if p = "/h".data then some "H".data
                          else if p = "/s".data then some "S".data else none : FS) q :=
  ⟨rfl, rfl, rfl,
    c2_rollback_amended.1
      (fun p => if p = "/h".data then some "H".data
                else if p = "/s".data then some "S".data else none)
      "/h".data "/s".data "t".data "n".data
      [⟨"w".data, "hg1".data, [], [], []⟩] false false
      "H".data "S".data
      ("S".data ++ '\n' :: beginMarker ++
        '\n' :: render_unlang_authorize_text [⟨"w".data, "hg1".data, [], [], []⟩] ++
        endMarker ++ ['\n'])
      rfl rfl rfl (by decide) (by decide) (by decide) (by decide)⟩
